import Mathlib

/-!
Verification of the bounded-capacity storage admission and cleanup core of the
"Send Ryan a Bird" Cloudflare Worker (worker source: the file defining
`getBucketStats`, `cleanupOldFiles` and `handleUploadImage`).

Shallow embedding notes:
* A stored object is `ObjEntry` (key, byte size, upload timestamp in ms).
  The adapter boundary normalizes `obj.size || 0` and the `uploaded` date, so
  `size : Nat` and `uploaded : Int` model the normalized values.
* JS numbers: every quantity compared here is an integer below 2^53, so JS
  float arithmetic on them is exact, except the thresholds
  `MAX_BUCKET_SIZE * 0.85 = 8214124953.6` and
  `MAX_BUCKET_SIZE * 0.85 * 0.8 = 6571299962.88`.  Those doubles differ from
  the exact rationals by far less than the distance to the nearest integer,
  and they are only ever compared against integers, so modelling them by the
  exact rationals `(17/20)` and `(17/20)*(4/5)` preserves every comparison.
* The `try { await bucket.list() ... } catch` pattern is modelled by passing
  the listing outcome as `Option (List ObjEntry)`: `none` is the thrown
  adapter error, `some objs` a successful AND complete (fully drained)
  listing — the case the source realizes when the store fits in one page,
  where the pagination loops run zero iterations.  The raw pagination loops
  themselves are embedded separately (`statsLoop`, `cleanupListLoop`) over a
  paged adapter, with explicit fuel: `none` as a result means the loop was
  still running when the fuel ran out, so `∀ fuel, ... = none` states
  non-termination of the source loop.  A successful listing of a store with
  more than `MAX_FILES_IN_BUCKET * 2` objects is cut off by the accountant's
  object ceiling and under-reports `totalSize`; that truncated-success case
  is covered by the paged admission model (`admitCore`, `handleUploadPaged`,
  `runPaged`), whose accountant is exactly `statsDrain`.
* `bucket.delete` failures are modelled by a predicate `fails : String → Bool`
  saying which keys' deletions throw.
* JS `Array.prototype.sort` is stable; `sortOldest` is a stable insertion
  sort by the comparator `a.uploaded - b.uploaded` of the source.
-/

namespace SendBird

/-- One persisted blob as seen through the object store adapter. -/
structure ObjEntry where
  key : String
  size : Nat
  uploaded : Int
deriving DecidableEq, Repr

/-- `MAX_FILE_SIZE = 10 * 1024 * 1024` from the source. -/
def MAX_FILE_SIZE : Nat := 10 * 1024 * 1024

/-- `MAX_BUCKET_SIZE = 9 * 1024 * 1024 * 1024` (9 GiB hard size limit). -/
def MAX_BUCKET_SIZE : Nat := 9 * 1024 * 1024 * 1024

/-- `MAX_FILES_IN_BUCKET = 500`. -/
def MAX_FILES_IN_BUCKET : Nat := 500

/-- `CLEANUP_THRESHOLD = 0.85`, exact as a rational (see float note above). -/
def CLEANUP_THRESHOLD : ℚ := 17 / 20

/-- The source's `0.8` cleanup target factor, exact as a rational. -/
def CLEANUP_TARGET_FRACTION : ℚ := 4 / 5

/-- `targetSize = MAX_BUCKET_SIZE * CLEANUP_THRESHOLD * 0.8` from
`handleUploadImage`. -/
def TARGET_SIZE : ℚ := (MAX_BUCKET_SIZE : ℚ) * CLEANUP_THRESHOLD * CLEANUP_TARGET_FRACTION

/-- `targetCount = Math.floor(MAX_FILES_IN_BUCKET * 0.8)` from
`handleUploadImage`. -/
def TARGET_COUNT : Nat := (⌊(MAX_FILES_IN_BUCKET : ℚ) * CLEANUP_TARGET_FRACTION⌋).toNat

/-- `totalSize += obj.size` accumulation (`reduce((sum, obj) => sum + obj.size, 0)`). -/
def sizeSum (l : List ObjEntry) : Nat := (l.map (fun o => o.size)).sum

/-- `getBucketStats`: on a successful fully-drained listing it totals sizes and
counts files; the `catch` branch returns `{ totalSize: 0, fileCount: 0 }`. -/
def getBucketStats (listResult : Option (List ObjEntry)) : Nat × Nat :=
  match listResult with
  | none => (0, 0)
  | some objs => (sizeSum objs, objs.length)

/-- Insert `x` into `l` before the first element not strictly older: the
unique stable position for the comparator `a.uploaded - b.uploaded`. -/
def insertOld (x : ObjEntry) : List ObjEntry → List ObjEntry
  | [] => [x]
  | h :: t => if h.uploaded < x.uploaded then h :: insertOld x t else x :: h :: t

/-- `allObjects.sort((a, b) => a.uploaded - b.uploaded)`: JS sort is stable
and consistent with this comparator, so its result is the unique stable
order by `uploaded`, computed here by stable insertion sort. -/
def sortOldest : List ObjEntry → List ObjEntry
  | [] => []
  | h :: t => insertOld h (sortOldest t)

/-- The planning loop of `cleanupOldFiles`: walk the (sorted) objects,
pushing keys and decrementing `currentSize`/`currentCount` until both are
within target.  Returns (filesToDelete as entries, final currentSize,
final currentCount). -/
def planLoop (objs : List ObjEntry) (currentSize currentCount : Nat)
    (targetSize : ℚ) (targetCount : Nat) : List ObjEntry × Nat × Nat :=
  match objs with
  | [] => ([], currentSize, currentCount)
  | o :: rest =>
    if (currentSize : ℚ) ≤ targetSize ∧ currentCount ≤ targetCount then
      ([], currentSize, currentCount)
    else
      let r := planLoop rest (currentSize - o.size) (currentCount - 1) targetSize targetCount
      (o :: r.1, r.2)

/-- The entries `cleanupOldFiles` plans for deletion from inventory `objs`. -/
def evictionPlan (objs : List ObjEntry) (targetSize : ℚ) (targetCount : Nat) : List ObjEntry :=
  let sorted := sortOldest objs
  (planLoop sorted (sizeSum sorted) sorted.length targetSize targetCount).1

/-- The deletion loop of `cleanupOldFiles`: attempt each planned key in
order; a failing `bucket.delete` is caught, logged and skipped.  Returns
(keys attempted, keys actually deleted). -/
def deleteLoop (fails : String → Bool) : List String → List String × List String
  | [] => ([], [])
  | k :: rest =>
    let r := deleteLoop fails rest
    (k :: r.1, if fails k then r.2 else k :: r.2)

/-- The triple `{ deleted, remainingSize, remainingCount }` returned by
`cleanupOldFiles`. -/
structure CleanupResult where
  deleted : Nat
  remainingSize : Nat
  remainingCount : Nat
deriving DecidableEq, Repr

/-- `cleanupOldFiles`: list (the `catch` branch returns the zero triple and
deletes nothing), sort oldest first, plan, then best-effort delete.
Returns the source's result triple together with (attempted keys,
successfully deleted keys), which model the loop's side effects. -/
def cleanupOldFiles (listResult : Option (List ObjEntry)) (targetSize : ℚ)
    (targetCount : Nat) (fails : String → Bool) :
    CleanupResult × List String × List String :=
  match listResult with
  | none => (⟨0, 0, 0⟩, [], [])
  | some objs =>
    let sorted := sortOldest objs
    let p := planLoop sorted (sizeSum sorted) sorted.length targetSize targetCount
    let d := deleteLoop fails (p.1.map (fun o => o.key))
    (⟨p.1.length, p.2.1, p.2.2⟩, d.1, d.2)

/-- Effect of the successful deletions on the store. -/
def applyDeletes (store : List ObjEntry) (deletedKeys : List String) : List ObjEntry :=
  store.filter (fun o => !(deletedKeys.contains o.key))

/-- `projectedSize > MAX_BUCKET_SIZE` check of `handleUploadImage`,
parameterized by the hard limit so the spec's worked example can be
instantiated; the worker applies it at `MAX_BUCKET_SIZE`. -/
def hardReject (hardLimit currentSize incoming : Nat) : Bool :=
  decide (hardLimit < currentSize + incoming)

/-- `projectedSize > MAX_BUCKET_SIZE * CLEANUP_THRESHOLD || projectedCount >
MAX_FILES_IN_BUCKET` check of `handleUploadImage`, parameterized likewise. -/
def softTrigger (hardLimit : Nat) (softFrac : ℚ) (hardCount projSize projCount : Nat) : Bool :=
  decide ((hardLimit : ℚ) * softFrac < (projSize : ℚ)) || decide (hardCount < projCount)

/-- The admission decision: `rejected` is the 507 response (carrying the
reported current and maximum sizes), `acceptedAfterCleanup` the path that
ran `cleanupOldFiles`, `accepted` the direct path. -/
inductive AdmitDecision where
  | rejected (currentSize maxSize : Nat)
  | accepted
  | acceptedAfterCleanup
deriving DecidableEq, Repr

/-- One admission call's inputs: size of the incoming (validated) object,
the key and timestamp it is stored under, and the adapter's behaviour
during this call (whether each of the two listings succeeds, and which
deletions fail). -/
structure AdmitRequest where
  fileSize : Nat
  newKey : String
  newUploaded : Int
  listOk : Bool
  cleanupListOk : Bool
  deleteFails : String → Bool

/-- Outcome of one admission call: the decision, whether `bucket.put` was
performed, and the resulting store contents. -/
structure AdmitOutcome where
  decision : AdmitDecision
  written : Bool
  store : List ObjEntry

/-- A listing attempt over the current store: `none` models the thrown
adapter error. -/
def listOutcome (store : List ObjEntry) (ok : Bool) : Option (List ObjEntry) :=
  if ok then some store else none

/-- The capacity-admission core of `handleUploadImage` (lines after file
validation): take stats, hard-reject on projected size, otherwise run
cleanup when the soft trigger fires, then `bucket.put` the new object.
`r.listOk = true` models a listing that succeeds and is complete (not cut
off by the accountant's object ceiling); truncated successful listings are
modelled by `handleUploadPaged` below, which agrees with this function on
the listOk cases by `handleUploadImage_eq`. -/
def handleUploadImage (store : List ObjEntry) (r : AdmitRequest) : AdmitOutcome :=
  let stats := getBucketStats (listOutcome store r.listOk)
  let projectedSize := stats.1 + r.fileSize
  let projectedCount := stats.2 + 1
  if hardReject MAX_BUCKET_SIZE stats.1 r.fileSize then
    { decision := AdmitDecision.rejected stats.1 MAX_BUCKET_SIZE, written := false, store := store }
  else if softTrigger MAX_BUCKET_SIZE CLEANUP_THRESHOLD MAX_FILES_IN_BUCKET projectedSize projectedCount then
    let c := cleanupOldFiles (listOutcome store r.cleanupListOk) TARGET_SIZE TARGET_COUNT r.deleteFails
    let store' := applyDeletes store c.2.2
    { decision := AdmitDecision.acceptedAfterCleanup, written := true,
      store := store' ++ [⟨r.newKey, r.fileSize, r.newUploaded⟩] }
  else
    { decision := AdmitDecision.accepted, written := true,
      store := store ++ [⟨r.newKey, r.fileSize, r.newUploaded⟩] }

/-- A single-threaded sequence of admission calls. -/
def runAdmissions (store : List ObjEntry) : List AdmitRequest → List ObjEntry
  | [] => store
  | r :: rest => runAdmissions (handleUploadImage store r).store rest

/-- One page of a paginated listing. -/
structure Page where
  objs : List ObjEntry
  cursor : Option String

/-- The pagination loop of `getBucketStats`:
`while (cursor && fileCount < MAX_FILES_IN_BUCKET * 2)`.  `fuel` bounds how
many iterations we unfold; `none` means the loop was still running. -/
def statsLoop (ad : Option String → Page) : Nat → Option String → Nat → Nat → Option (Nat × Nat)
  | _, none, totalSize, fileCount => some (totalSize, fileCount)
  | fuel, some c, totalSize, fileCount =>
    if fileCount < MAX_FILES_IN_BUCKET * 2 then
      match fuel with
      | 0 => none
      | fuel' + 1 =>
        let p := ad (some c)
        statsLoop ad fuel' p.cursor (totalSize + sizeSum p.objs) (fileCount + p.objs.length)
    else some (totalSize, fileCount)

/-- `getBucketStats` against a paged adapter: first `bucket.list()`, then the
bounded-by-count pagination loop. -/
def statsDrain (ad : Option String → Page) (fuel : Nat) : Option (Nat × Nat) :=
  let p := ad none
  statsLoop ad fuel p.cursor (sizeSum p.objs) p.objs.length

/-- The pagination loop of `cleanupOldFiles`: `while (cursor)`, with no
further condition. -/
def cleanupListLoop (ad : Option String → Page) : Nat → Option String → List ObjEntry → Option (List ObjEntry)
  | _, none, acc => some acc
  | 0, some _, _ => none
  | fuel + 1, some c, acc =>
    let p := ad (some c)
    cleanupListLoop ad fuel p.cursor (acc ++ p.objs)

/-- The listing drain of `cleanupOldFiles` against a paged adapter. -/
def cleanupDrain (ad : Option String → Page) (fuel : Nat) : Option (List ObjEntry) :=
  let p := ad none
  cleanupListLoop ad fuel p.cursor p.objs

/-- An adapter that always returns an empty page with the same cursor: a
cyclic, never-absent cursor sequence. -/
def cyclicAdapter : Option String → Page := fun _ => { objs := [], cursor := some "c" }

/-- The admission checks of `handleUploadImage` applied to whatever snapshot
figures the accountant reported — the source's checks use the returned
`stats` unconditionally, whether they are exact, truncated by the listing
ceiling, or zeroed by the catch branch. -/
def admitCore (store : List ObjEntry) (stats : Nat × Nat) (fileSize : Nat) (newKey : String)
    (newUploaded : Int) (cleanupListOk : Bool) (deleteFails : String → Bool) : AdmitOutcome :=
  let projectedSize := stats.1 + fileSize
  let projectedCount := stats.2 + 1
  if hardReject MAX_BUCKET_SIZE stats.1 fileSize then
    { decision := AdmitDecision.rejected stats.1 MAX_BUCKET_SIZE, written := false, store := store }
  else if softTrigger MAX_BUCKET_SIZE CLEANUP_THRESHOLD MAX_FILES_IN_BUCKET projectedSize projectedCount then
    let c := cleanupOldFiles (listOutcome store cleanupListOk) TARGET_SIZE TARGET_COUNT deleteFails
    let store' := applyDeletes store c.2.2
    { decision := AdmitDecision.acceptedAfterCleanup, written := true,
      store := store' ++ [⟨newKey, fileSize, newUploaded⟩] }
  else
    { decision := AdmitDecision.accepted, written := true,
      store := store ++ [⟨newKey, fileSize, newUploaded⟩] }

/-- One admission call against the paginated accountant.  The pager serves
this call's listing pages as a function of the store's current contents
(`none`: the `bucket.list` call throws and the catch branch reports the
zero inventory); `fuel` bounds how many pagination-loop iterations are
unfolded. -/
structure PagedRequest where
  pager : Option (List ObjEntry → Option String → Page)
  fuel : Nat
  fileSize : Nat
  newKey : String
  newUploaded : Int
  cleanupListOk : Bool
  deleteFails : String → Bool

/-- The admission call with its stats taken from the paginated accountant
(`statsDrain`, the exact embedding of `getBucketStats`' loop): `none` means
the pagination loop had not finished within `fuel` iterations, so the call
never returned. -/
def handleUploadPaged (store : List ObjEntry) (q : PagedRequest) : Option AdmitOutcome :=
  match q.pager with
  | none =>
    some (admitCore store (0, 0) q.fileSize q.newKey q.newUploaded q.cleanupListOk q.deleteFails)
  | some pg =>
    match statsDrain (pg store) q.fuel with
    | none => none
    | some st =>
      some (admitCore store st q.fileSize q.newKey q.newUploaded q.cleanupListOk q.deleteFails)

/-- A single-threaded sequence of admission calls against the paginated
accountant; `none` when some call's pagination loop never finished. -/
def runPaged (store : List ObjEntry) : List PagedRequest → Option (List ObjEntry)
  | [] => some store
  | q :: rest =>
    match handleUploadPaged store q with
    | none => none
    | some o => runPaged o.store rest

/-! ## Helper lemmas -/

lemma sizeSum_nil : sizeSum [] = 0 := rfl

lemma sizeSum_cons (o : ObjEntry) (l : List ObjEntry) : sizeSum (o :: l) = o.size + sizeSum l := by
  simp [sizeSum]

lemma sizeSum_append (l₁ l₂ : List ObjEntry) : sizeSum (l₁ ++ l₂) = sizeSum l₁ + sizeSum l₂ := by
  simp [sizeSum]

lemma sizeSum_filter_le (p : ObjEntry → Bool) (l : List ObjEntry) :
    sizeSum (l.filter p) ≤ sizeSum l := by
  induction l with
  | nil => simp
  | cons h t ih => by_cases hp : p h <;> simp [List.filter_cons, hp, sizeSum_cons] <;> omega

lemma insertOld_perm (x : ObjEntry) (l : List ObjEntry) : List.Perm (insertOld x l) (x :: l) := by
  induction l with
  | nil => simp [insertOld]
  | cons h t ih =>
    by_cases hc : h.uploaded < x.uploaded
    · simp only [insertOld, if_pos hc]
      exact (ih.cons h).trans (List.Perm.swap x h t)
    · simp [insertOld, if_neg hc]

lemma sortOldest_perm (l : List ObjEntry) : List.Perm (sortOldest l) l := by
  induction l with
  | nil => simp [sortOldest]
  | cons h t ih => exact (insertOld_perm h (sortOldest t)).trans (ih.cons h)

lemma sizeSum_sortOldest (l : List ObjEntry) : sizeSum (sortOldest l) = sizeSum l := by
  simpa [sizeSum] using ((sortOldest_perm l).map (fun o => o.size)).sum_eq

lemma length_sortOldest (l : List ObjEntry) : (sortOldest l).length = l.length :=
  (sortOldest_perm l).length_eq

lemma pairwise_insertOld {x : ObjEntry} {l : List ObjEntry}
    (hl : l.Pairwise (fun a b => a.uploaded ≤ b.uploaded)) :
    (insertOld x l).Pairwise (fun a b => a.uploaded ≤ b.uploaded) := by
  induction l with
  | nil => simp [insertOld]
  | cons h t ih =>
    rcases List.pairwise_cons.mp hl with ⟨hh, ht⟩
    by_cases hc : h.uploaded < x.uploaded
    · simp only [insertOld, if_pos hc]
      refine List.pairwise_cons.mpr ⟨?_, ih ht⟩
      intro y hy
      rcases List.mem_cons.mp ((insertOld_perm x t).mem_iff.mp hy) with hyx | hyt
      · rw [hyx]; exact le_of_lt hc
      · exact hh y hyt
    · simp only [insertOld, if_neg hc]
      refine List.pairwise_cons.mpr ⟨?_, hl⟩
      intro y hy
      rcases List.mem_cons.mp hy with hyh | hyt
      · exact hyh ▸ not_lt.mp hc
      · exact le_trans (not_lt.mp hc) (hh y hyt)

lemma sortOldest_pairwise (l : List ObjEntry) :
    (sortOldest l).Pairwise (fun a b => a.uploaded ≤ b.uploaded) := by
  induction l with
  | nil => simp [sortOldest]
  | cons h t ih => exact pairwise_insertOld ih

lemma filter_insertOld (x : ObjEntry) (l : List ObjEntry) (t : Int) :
    (insertOld x l).filter (fun o => o.uploaded == t) =
      if x.uploaded = t then x :: l.filter (fun o => o.uploaded == t)
      else l.filter (fun o => o.uploaded == t) := by
  induction l with
  | nil => by_cases hx : x.uploaded = t <;> simp [insertOld, List.filter_cons, hx]
  | cons h tl ih =>
    rw [show insertOld x (h :: tl) =
        if h.uploaded < x.uploaded then h :: insertOld x tl else x :: h :: tl from rfl]
    by_cases hc : h.uploaded < x.uploaded
    · rw [if_pos hc]
      by_cases hh : h.uploaded = t
      · have hx : ¬ x.uploaded = t := by
          intro he; rw [hh] at hc; rw [he] at hc; exact lt_irrefl t hc
        simp [List.filter_cons, hh, hx, ih]
      · simp [List.filter_cons, hh, ih]
    · rw [if_neg hc]
      by_cases hx : x.uploaded = t <;> simp [List.filter_cons, hx]

lemma sortOldest_filter_eq (l : List ObjEntry) (t : Int) :
    (sortOldest l).filter (fun o => o.uploaded == t) = l.filter (fun o => o.uploaded == t) := by
  induction l with
  | nil => rfl
  | cons h tl ih =>
    by_cases hh : h.uploaded = t <;>
      simp [sortOldest, filter_insertOld, List.filter_cons, hh, ih]

lemma pairwise_take_drop {R : ObjEntry → ObjEntry → Prop} {l : List ObjEntry}
    (hp : l.Pairwise R) (k : Nat) : ∀ x ∈ l.take k, ∀ y ∈ l.drop k, R x y := by
  have h : (l.take k ++ l.drop k).Pairwise R := by rw [List.take_append_drop]; exact hp
  exact (List.pairwise_append.mp h).2.2

lemma planLoop_cons (o : ObjEntry) (rest : List ObjEntry) (cs cc : Nat) (ts : ℚ) (tc : Nat) :
    planLoop (o :: rest) cs cc ts tc =
      if ((cs : ℚ) ≤ ts ∧ cc ≤ tc) then ([], cs, cc)
      else ((o :: (planLoop rest (cs - o.size) (cc - 1) ts tc).1),
            (planLoop rest (cs - o.size) (cc - 1) ts tc).2) := rfl

lemma planLoop_spec (s : List ObjEntry) (ts : ℚ) (tc : Nat) :
    ∃ k, k ≤ s.length ∧
      (planLoop s (sizeSum s) s.length ts tc).1 = s.take k ∧
      (∀ j, j < k → ¬ (((sizeSum (s.drop j) : ℚ)) ≤ ts ∧ (s.drop j).length ≤ tc)) ∧
      ((((sizeSum (s.drop k) : ℚ)) ≤ ts ∧ (s.drop k).length ≤ tc) ∨ k = s.length) := by
  induction s with
  | nil =>
    refine ⟨0, Nat.le_refl _, rfl, ?_, Or.inr rfl⟩
    intro j hj
    exact absurd hj (Nat.not_lt_zero j)
  | cons o rest ih =>
    by_cases hc : ((sizeSum (o :: rest) : ℚ)) ≤ ts ∧ (o :: rest).length ≤ tc
    · refine ⟨0, Nat.zero_le _, ?_, ?_, Or.inl ?_⟩
      · rw [planLoop_cons, if_pos hc]; rfl
      · intro j hj
        exact absurd hj (Nat.not_lt_zero j)
      · simpa using hc
    · obtain ⟨k, hk, hplan, hmin, hend⟩ := ih
      have h1 : sizeSum (o :: rest) - o.size = sizeSum rest := by
        rw [sizeSum_cons]; omega
      have h2 : (o :: rest).length - 1 = rest.length := by simp
      refine ⟨k + 1, by simpa using Nat.succ_le_succ hk, ?_, ?_, ?_⟩
      · rw [planLoop_cons, if_neg hc, h1, h2, List.take_succ_cons]
        rw [hplan]
      · intro j hj
        match j with
        | 0 => simpa using hc
        | j' + 1 =>
          have : j' < k := by omega
          simpa [List.drop_succ_cons] using hmin j' this
      · rcases hend with h | h
        · left; simpa [List.drop_succ_cons] using h
        · right; simp [h]

lemma planLoop_snd (s : List ObjEntry) (cs cc : Nat) (ts : ℚ) (tc : Nat) :
    (planLoop s cs cc ts tc).2.1 = cs - sizeSum (planLoop s cs cc ts tc).1 ∧
    (planLoop s cs cc ts tc).2.2 = cc - (planLoop s cs cc ts tc).1.length := by
  induction s generalizing cs cc with
  | nil => simp [planLoop, sizeSum]
  | cons o rest ih =>
    by_cases hc : ((cs : ℚ) ≤ ts ∧ cc ≤ tc)
    · simp [planLoop, if_pos hc, sizeSum]
    · have h := ih (cs - o.size) (cc - 1)
      simp only [planLoop, if_neg hc, sizeSum_cons, List.length_cons]
      omega

lemma planLoop_length_mono (s : List ObjEntry) (cs cc : Nat) {ts ts' : ℚ} {tc tc' : Nat}
    (h1 : ts ≤ ts') (h2 : tc ≤ tc') :
    (planLoop s cs cc ts' tc').1.length ≤ (planLoop s cs cc ts tc).1.length := by
  induction s generalizing cs cc with
  | nil => simp [planLoop]
  | cons o rest ih =>
    by_cases hc' : ((cs : ℚ) ≤ ts' ∧ cc ≤ tc')
    · simp [planLoop, if_pos hc']
    · have hc : ¬ ((cs : ℚ) ≤ ts ∧ cc ≤ tc) := by
        intro h; exact hc' ⟨h.1.trans h1, h.2.trans h2⟩
      simp only [planLoop, if_neg hc', if_neg hc, List.length_cons]
      exact Nat.succ_le_succ (ih _ _)

lemma deleteLoop_fst (fails : String → Bool) (keys : List String) :
    (deleteLoop fails keys).1 = keys := by
  induction keys with
  | nil => rfl
  | cons k rest ih => simp [deleteLoop, ih]

lemma cleanupListLoop_cyclic (fuel : Nat) : ∀ (c : String) (acc : List ObjEntry),
    cleanupListLoop cyclicAdapter fuel (some c) acc = none := by
  induction fuel with
  | zero => intro c acc; rfl
  | succ n ih =>
    intro c acc
    simpa [cleanupListLoop, cyclicAdapter] using ih "c" acc

lemma statsLoop_cyclic (fuel : Nat) : ∀ (c : String) (total count : Nat),
    count < MAX_FILES_IN_BUCKET * 2 →
    statsLoop cyclicAdapter fuel (some c) total count = none := by
  induction fuel with
  | zero =>
    intro c total count h
    simp [statsLoop, if_pos h]
  | succ n ih =>
    intro c total count h
    simpa [statsLoop, if_pos h, cyclicAdapter, sizeSum] using ih "c" total count h

lemma statsLoop_bounded (ad : Option String → Page) (hne : ∀ c, (ad c).objs ≠ []) :
    ∀ (fuel : Nat) (cursor : Option String) (total count : Nat),
    MAX_FILES_IN_BUCKET * 2 ≤ fuel + count →
    (statsLoop ad fuel cursor total count).isSome = true := by
  intro fuel
  induction fuel with
  | zero =>
    intro cursor total count h
    match cursor with
    | none => rfl
    | some c =>
      have : ¬ count < MAX_FILES_IN_BUCKET * 2 := by omega
      simp [statsLoop, if_neg this]
  | succ n ih =>
    intro cursor total count h
    match cursor with
    | none => rfl
    | some c =>
      by_cases hcnt : count < MAX_FILES_IN_BUCKET * 2
      · simp only [statsLoop, if_pos hcnt]
        refine ih _ _ _ ?_
        have hlen : 1 ≤ (ad (some c)).objs.length :=
          List.length_pos.mpr (hne (some c))
        omega
      · simp [statsLoop, if_neg hcnt]

lemma sizeSum_applyDeletes_le (store : List ObjEntry) (keys : List String) :
    sizeSum (applyDeletes store keys) ≤ sizeSum store :=
  sizeSum_filter_le _ store

lemma sizeSum_replicate (n : Nat) (o : ObjEntry) :
    sizeSum (List.replicate n o) = n * o.size := by
  induction n with
  | zero => simp [sizeSum]
  | succ k ih =>
    rw [List.replicate_succ, sizeSum_cons, ih, Nat.succ_mul]
    omega

lemma applyDeletes_nil (store : List ObjEntry) : applyDeletes store [] = store := by
  simp [applyDeletes]

lemma handleUploadImage_eq (store : List ObjEntry) (r : AdmitRequest) :
    handleUploadImage store r =
      admitCore store (getBucketStats (listOutcome store r.listOk))
        r.fileSize r.newKey r.newUploaded r.cleanupListOk r.deleteFails := rfl

lemma admitCore_step_bound (store : List ObjEntry) (stats : Nat × Nat) (fileSize : Nat)
    (newKey : String) (newUploaded : Int) (cleanupListOk : Bool) (deleteFails : String → Bool)
    (h0 : sizeSum store ≤ MAX_BUCKET_SIZE) (hrep : sizeSum store ≤ stats.1) :
    sizeSum (admitCore store stats fileSize newKey newUploaded cleanupListOk deleteFails).store
      ≤ MAX_BUCKET_SIZE := by
  simp only [admitCore]
  by_cases hr : hardReject MAX_BUCKET_SIZE stats.1 fileSize
  · simp only [if_pos hr]
    exact h0
  · have hle : stats.1 + fileSize ≤ MAX_BUCKET_SIZE := by
      have := hr
      simp only [hardReject, decide_eq_true_eq] at this
      omega
    simp only [if_neg hr]
    by_cases ht : softTrigger MAX_BUCKET_SIZE CLEANUP_THRESHOLD MAX_FILES_IN_BUCKET
        (stats.1 + fileSize) (stats.2 + 1)
    · simp only [if_pos ht]
      have h1 := sizeSum_applyDeletes_le store
        (cleanupOldFiles (listOutcome store cleanupListOk)
          TARGET_SIZE TARGET_COUNT deleteFails).2.2
      rw [sizeSum_append, sizeSum_cons]
      simp only [sizeSum_nil]
      omega
    · simp only [if_neg ht]
      rw [sizeSum_append, sizeSum_cons]
      simp only [sizeSum_nil]
      omega

/-- Decision characterization of the admission core when the stats listing
succeeds: hard-reject exactly on projected size over the hard limit,
otherwise cleanup exactly on the soft trigger. -/
lemma handleUpload_decision_eq (store : List ObjEntry) (r : AdmitRequest) (hok : r.listOk = true) :
    (handleUploadImage store r).decision =
      if MAX_BUCKET_SIZE < sizeSum store + r.fileSize then
        AdmitDecision.rejected (sizeSum store) MAX_BUCKET_SIZE
      else if ((MAX_BUCKET_SIZE : ℚ) * CLEANUP_THRESHOLD < ((sizeSum store + r.fileSize : Nat) : ℚ)
          ∨ MAX_FILES_IN_BUCKET < store.length + 1) then
        AdmitDecision.acceptedAfterCleanup
      else AdmitDecision.accepted := by
  simp only [handleUploadImage, listOutcome, hok, if_true, getBucketStats, hardReject, softTrigger,
    Bool.or_eq_true, decide_eq_true_eq]
  split_ifs <;> rfl

/-! ## Concrete inputs used by witnesses and counterexamples -/

/-- A small healthy store. -/
def wStore : List ObjEntry := [⟨"w1", 10, 1⟩, ⟨"w2", 20, 2⟩]

/-- A small request whose listings succeed. -/
def wReq : AdmitRequest :=
  { fileSize := 3, newKey := "w3", newUploaded := 9, listOk := true, cleanupListOk := true,
    deleteFails := fun _ => false }

/-- A store already at exactly the hard size limit. -/
def cexStore : List ObjEntry := [⟨"big", MAX_BUCKET_SIZE, 0⟩]

/-- A one-byte upload whose stats listing fails. -/
def cexReq : AdmitRequest :=
  { fileSize := 1, newKey := "new", newUploaded := 1, listOk := false, cleanupListOk := true,
    deleteFails := fun _ => false }

/-- A small store for the fail-open counterexample. -/
def cexFailStore : List ObjEntry := [⟨"x", 7, 0⟩]

/-- A request whose stats listing fails. -/
def cexFailReq : AdmitRequest :=
  { fileSize := 3, newKey := "y", newUploaded := 2, listOk := false, cleanupListOk := true,
    deleteFails := fun _ => false }

/-! ## Claim theorems -/

/-- C1 (counterexample): the claim fails as stated.  From a store whose total
size is exactly the hard limit, an admission call whose inventory listing
fails is `accepted` (the `catch` in `getBucketStats` reports a zero
inventory), the object is written, and the resulting total size exceeds
`MAX_BUCKET_SIZE`. -/
theorem overshoot_counterexample :
    sizeSum cexStore ≤ MAX_BUCKET_SIZE ∧
    (handleUploadImage cexStore cexReq).decision = AdmitDecision.accepted ∧
    (handleUploadImage cexStore cexReq).written = true ∧
    MAX_BUCKET_SIZE < sizeSum (runAdmissions cexStore [cexReq]) := by
  refine ⟨by norm_num [cexStore, sizeSum], ?_, ?_, ?_⟩ <;>
    norm_num [runAdmissions, handleUploadImage, cexStore, cexReq, listOutcome, getBucketStats,
      sizeSum, hardReject, softTrigger, MAX_BUCKET_SIZE, MAX_FILES_IN_BUCKET, CLEANUP_THRESHOLD]

/-- The store of the truncated-listing overshoot: 1000 objects of 9663676
bytes each plus one 416-byte object, total exactly `MAX_BUCKET_SIZE`. -/
def truncStore : List ObjEntry :=
  List.replicate 1000 ⟨"o", 9663676, 0⟩ ++ [⟨"z", 416, 0⟩]

/-- A pager that serves only the first 1000 objects of `truncStore` in its
first page and signals a continuation cursor: the listing succeeds, but the
accountant's object ceiling (`fileCount < MAX_FILES_IN_BUCKET * 2`) stops
the drain right there, leaving the 416-byte object uncounted. -/
def truncPager : List ObjEntry → Option String → Page :=
  fun _ _ => { objs := List.replicate 1000 ⟨"o", 9663676, 0⟩, cursor := some "more" }

/-- A 1-byte upload over the truncated listing; the cleanup pass's own
listing throws (caught in the source, deleting nothing). -/
def truncReq : PagedRequest :=
  { pager := some truncPager, fuel := 0, fileSize := 1, newKey := "n", newUploaded := 1,
    cleanupListOk := false, deleteFails := fun _ => false }

/-- The previous, listing-success-only amendment is also refuted: from a
1001-object store totalling exactly the hard limit, a successful listing is
truncated at the accountant's 1000-object ceiling and under-reports the
total by 416 bytes, so a 1-byte upload passes the capacity check, is
written (the cleanup pass deletes nothing, its own listing having failed),
and the store overshoots `MAX_BUCKET_SIZE` although every stats listing
succeeded. -/
theorem truncated_listing_overshoot :
    sizeSum truncStore = MAX_BUCKET_SIZE ∧
    statsDrain (truncPager truncStore) truncReq.fuel = some (9663676000, 1000) ∧
    (∃ o, handleUploadPaged truncStore truncReq = some o ∧
      o.decision = AdmitDecision.acceptedAfterCleanup ∧ o.written = true ∧
      MAX_BUCKET_SIZE < sizeSum o.store) := by
  have hrep : sizeSum (List.replicate 1000 (⟨"o", 9663676, 0⟩ : ObjEntry)) = 9663676000 := by
    rw [sizeSum_replicate]
    norm_num
  have htot : sizeSum truncStore = MAX_BUCKET_SIZE := by
    rw [truncStore, sizeSum_append, hrep, sizeSum_cons, sizeSum_nil]
    norm_num [MAX_BUCKET_SIZE]
  have hdrain : statsDrain (truncPager truncStore) 0 = some (9663676000, 1000) := by
    have hnot : ¬ ((1000 : Nat) < MAX_FILES_IN_BUCKET * 2) := by
      norm_num [MAX_FILES_IN_BUCKET]
    simp only [statsDrain, truncPager, statsLoop, List.length_replicate, hrep, if_neg hnot]
  have hcore : admitCore truncStore (9663676000, 1000) 1 "n" 1 false (fun _ => false) =
      { decision := AdmitDecision.acceptedAfterCleanup, written := true,
        store := truncStore ++ [⟨"n", 1, 1⟩] } := by
    simp only [admitCore]
    split_ifs with hA hB
    · exact absurd hA (by norm_num [hardReject, MAX_BUCKET_SIZE])
    · simp only [listOutcome, Bool.false_eq_true, if_false, cleanupOldFiles, applyDeletes_nil]
    · exfalso
      apply hB
      norm_num [softTrigger, MAX_FILES_IN_BUCKET, MAX_BUCKET_SIZE, CLEANUP_THRESHOLD,
        Bool.or_eq_true, decide_eq_true_eq]
  refine ⟨htot, hdrain, ?_⟩
  refine ⟨admitCore truncStore (9663676000, 1000) 1 "n" 1 false (fun _ => false), ?_, ?_⟩
  · simp only [handleUploadPaged, truncReq, hdrain]
  · rw [hcore]
    refine ⟨rfl, rfl, ?_⟩
    rw [sizeSum_append, htot]
    simp [sizeSum]

/-- C1 (amended): no silent overshoot holds for every single-threaded
sequence of admission calls whose inventory listings succeed and fully
drain the store, reporting its exact total size and object count (the
source's accountant guarantees this only while the listing is not cut off
by its object ceiling): starting from a store whose total size is at most
`MAX_BUCKET_SIZE`, whenever the sequence completes, the resulting total
size never exceeds `MAX_BUCKET_SIZE`. -/
theorem no_silent_overshoot_of_complete_listings (store : List ObjEntry)
    (qs : List PagedRequest) (h0 : sizeSum store ≤ MAX_BUCKET_SIZE)
    (hfull : ∀ q ∈ qs, ∃ pg, q.pager = some pg ∧
      ∀ s : List ObjEntry, statsDrain (pg s) q.fuel = some (sizeSum s, s.length)) :
    ∀ result, runPaged store qs = some result → sizeSum result ≤ MAX_BUCKET_SIZE := by
  induction qs generalizing store with
  | nil =>
    intro result hres
    simp only [runPaged, Option.some.injEq] at hres
    rw [← hres]
    exact h0
  | cons q rest ih =>
    intro result hres
    obtain ⟨pg, hpg, hdrain⟩ := hfull q (List.mem_cons_self q rest)
    simp only [runPaged, handleUploadPaged, hpg, hdrain store] at hres
    exact ih _
      (admitCore_step_bound store (sizeSum store, store.length) q.fileSize q.newKey
        q.newUploaded q.cleanupListOk q.deleteFails h0 (le_refl _))
      (fun p hp => hfull p (List.mem_cons_of_mem q hp)) result hres

/-- An honest pager: it serves whatever store it is given as a single page
with no continuation cursor, so its drain always reports exact totals. -/
def wPager : List ObjEntry → Option String → Page :=
  fun s _ => { objs := s, cursor := none }

/-- A concrete request carrying the honest pager. -/
def wPagedReq : PagedRequest :=
  { pager := some wPager, fuel := 0, fileSize := 3, newKey := "w3", newUploaded := 9,
    cleanupListOk := true, deleteFails := fun _ => false }

/-- C1 witness: the amended theorem applied to a concrete healthy store and
one concrete fully-draining admission call. -/
theorem no_silent_overshoot_of_complete_listings_witness :
    sizeSum wStore ≤ MAX_BUCKET_SIZE ∧
    (∀ q ∈ [wPagedReq], ∃ pg, q.pager = some pg ∧
      ∀ s : List ObjEntry, statsDrain (pg s) q.fuel = some (sizeSum s, s.length)) ∧
    (∀ result, runPaged wStore [wPagedReq] = some result →
      sizeSum result ≤ MAX_BUCKET_SIZE) :=
  ⟨by decide,
   fun q hq => by
     rw [List.mem_singleton] at hq
     subst hq
     exact ⟨wPager, rfl, fun s => rfl⟩,
   no_silent_overshoot_of_complete_listings wStore [wPagedReq] (by decide)
     (fun q hq => by
       rw [List.mem_singleton] at hq
       subst hq
       exact ⟨wPager, rfl, fun s => rfl⟩)⟩

/-- C2: hard rejection rule.  When the listing succeeds, the admission is
rejected exactly when `totalSize + incoming > MAX_BUCKET_SIZE` (so equality
is not rejected), the rejection carries the current total and the maximum
size, the object count alone never causes a hard rejection, and the spec's
worked example at `hardSizeLimit = 1000`, `S = 950` holds: incoming `60` is
rejected, incoming `40` is not. -/
theorem hard_rejection_rule (store : List ObjEntry) (r : AdmitRequest) (hok : r.listOk = true) :
    ((handleUploadImage store r).decision = AdmitDecision.rejected (sizeSum store) MAX_BUCKET_SIZE
        ↔ MAX_BUCKET_SIZE < sizeSum store + r.fileSize)
    ∧ (sizeSum store + r.fileSize ≤ MAX_BUCKET_SIZE →
        ∀ cs ms, (handleUploadImage store r).decision ≠ AdmitDecision.rejected cs ms)
    ∧ (∀ hardLimit S n : Nat, hardReject hardLimit S n = true ↔ hardLimit < S + n)
    ∧ hardReject 1000 950 60 = true ∧ hardReject 1000 950 40 = false := by
  have hd := handleUpload_decision_eq store r hok
  refine ⟨?_, ?_, fun a b c => by simp [hardReject], by decide, by decide⟩
  · rw [hd]
    split_ifs with h1 h2 <;> simp [h1]
  · intro hle cs ms
    rw [hd, if_neg (by omega)]
    split_ifs <;> simp

/-- C2 witness: the rule applied at a concrete store and request. -/
theorem hard_rejection_rule_witness :
    wReq.listOk = true ∧
    ((handleUploadImage wStore wReq).decision = AdmitDecision.rejected (sizeSum wStore) MAX_BUCKET_SIZE
        ↔ MAX_BUCKET_SIZE < sizeSum wStore + wReq.fileSize) :=
  ⟨rfl, (hard_rejection_rule wStore wReq rfl).1⟩

/-- C3: cleanup trigger and targets.  For an admission that is not
hard-rejected (listing successful), the cleanup pass runs exactly when
`projectedSize > MAX_BUCKET_SIZE * CLEANUP_THRESHOLD` or
`projectedCount > MAX_FILES_IN_BUCKET`; the targets passed to it are
`TARGET_SIZE = hardSizeLimit * softThreshold * cleanupFraction` and
`TARGET_COUNT = floor(hardCountLimit * cleanupFraction) = 400`; and the
spec's example (soft fraction `0.85`, hard limit `1000`, current `800`,
incoming `100`, projected `900 > 850`) does trigger. -/
theorem cleanup_trigger_rule (store : List ObjEntry) (r : AdmitRequest) (hok : r.listOk = true)
    (hnr : sizeSum store + r.fileSize ≤ MAX_BUCKET_SIZE) :
    ((handleUploadImage store r).decision = AdmitDecision.acceptedAfterCleanup
       ↔ ((MAX_BUCKET_SIZE : ℚ) * CLEANUP_THRESHOLD < ((sizeSum store + r.fileSize : Nat) : ℚ)
           ∨ MAX_FILES_IN_BUCKET < store.length + 1))
    ∧ TARGET_SIZE = (MAX_BUCKET_SIZE : ℚ) * CLEANUP_THRESHOLD * CLEANUP_TARGET_FRACTION
    ∧ TARGET_COUNT = 400
    ∧ softTrigger 1000 (17/20) 500 (800 + 100) (1 + 1) = true := by
  refine ⟨?_, rfl, ?_, ?_⟩
  · rw [handleUpload_decision_eq store r hok, if_neg (by omega)]
    split_ifs with h2
    · exact ⟨fun _ => h2, fun _ => rfl⟩
    · exact ⟨fun h => absurd h (by simp), fun h => absurd h h2⟩
  · have h : TARGET_COUNT = Int.toNat 400 := by
      norm_num [TARGET_COUNT, MAX_FILES_IN_BUCKET, CLEANUP_TARGET_FRACTION]
    rw [h]; rfl
  · norm_num [softTrigger, Bool.or_eq_true, decide_eq_true_eq]

/-- C3 witness: the trigger rule applied at a concrete store and request. -/
theorem cleanup_trigger_rule_witness :
    wReq.listOk = true ∧ sizeSum wStore + wReq.fileSize ≤ MAX_BUCKET_SIZE ∧ TARGET_COUNT = 400 :=
  ⟨rfl, by decide, (cleanup_trigger_rule wStore wReq rfl (by decide)).2.2.1⟩

/-- C5 (counterexample): the claim fails as stated.  When the listing fails,
`getBucketStats` returns the zero inventory instead of failing, and the
admission proceeds: the write is performed and no rejection is produced. -/
theorem fail_closed_counterexample :
    getBucketStats none = (0, 0) ∧
    cexFailReq.listOk = false ∧
    (handleUploadImage cexFailStore cexFailReq).written = true ∧
    (∀ cs ms, (handleUploadImage cexFailStore cexFailReq).decision ≠ AdmitDecision.rejected cs ms) := by
  refine ⟨rfl, rfl, ?_, ?_⟩
  · norm_num [handleUploadImage, cexFailStore, cexFailReq, listOutcome, getBucketStats,
      sizeSum, hardReject, softTrigger, MAX_BUCKET_SIZE, MAX_FILES_IN_BUCKET, CLEANUP_THRESHOLD]
  · norm_num [handleUploadImage, cexFailStore, cexFailReq, listOutcome, getBucketStats,
      sizeSum, hardReject, softTrigger, MAX_BUCKET_SIZE, MAX_FILES_IN_BUCKET, CLEANUP_THRESHOLD]
    exact fun cs ms h => AdmitDecision.noConfusion h

/-- C5 (amended): snapshot failure fails open.  For every admission call
whose listing fails (and whose validated file size does not by itself
exceed the hard limit), the inventory computation silently yields the empty
inventory `(0, 0)`, no rejection is produced, and the write is performed. -/
theorem snapshot_failure_fails_open (store : List ObjEntry) (r : AdmitRequest)
    (hfail : r.listOk = false) (hsz : r.fileSize ≤ MAX_BUCKET_SIZE) :
    getBucketStats (listOutcome store r.listOk) = (0, 0) ∧
    (handleUploadImage store r).written = true ∧
    ∀ cs ms, (handleUploadImage store r).decision ≠ AdmitDecision.rejected cs ms := by
  have h1 : listOutcome store r.listOk = none := by rw [hfail]; rfl
  have hhr : ¬ (hardReject MAX_BUCKET_SIZE 0 r.fileSize = true) := by
    simp only [hardReject, decide_eq_true_eq]
    omega
  refine ⟨by rw [h1]; rfl, ?_, ?_⟩ <;>
    simp only [handleUploadImage, h1, getBucketStats, if_neg hhr] <;>
    split_ifs <;> simp

/-- C5 witness: the amended theorem applied at a concrete store and a
concrete failing-listing request. -/
theorem snapshot_failure_fails_open_witness :
    cexFailReq.listOk = false ∧ cexFailReq.fileSize ≤ MAX_BUCKET_SIZE ∧
      (handleUploadImage wStore cexFailReq).written = true :=
  ⟨rfl, by decide, (snapshot_failure_fails_open wStore cexFailReq rfl (by decide)).2.1⟩

/-- C4: the eviction plan is the minimal oldest-first prefix.  For every
inventory and non-negative targets, the plan is a prefix of the
oldest-first-sorted inventory whose removal meets both targets; every
strictly shorter prefix leaves some target unmet; and no plan contains an
object while excluding a strictly older object of the same inventory. -/
theorem eviction_plan_minimal_oldest_first (objs : List ObjEntry) (ts : ℚ) (tc : Nat)
    (hts : 0 ≤ ts) :
    ∃ k, evictionPlan objs ts tc = (sortOldest objs).take k ∧
      (((sizeSum ((sortOldest objs).drop k) : ℚ)) ≤ ts ∧ ((sortOldest objs).drop k).length ≤ tc) ∧
      (∀ j, j < k →
        ¬ (((sizeSum ((sortOldest objs).drop j) : ℚ)) ≤ ts ∧ ((sortOldest objs).drop j).length ≤ tc)) ∧
      (∀ x ∈ evictionPlan objs ts tc, ∀ y ∈ objs, y.uploaded < x.uploaded →
        y ∈ evictionPlan objs ts tc) := by
  obtain ⟨k, hk, hplan, hmin, hend⟩ := planLoop_spec (sortOldest objs) ts tc
  have hplan' : evictionPlan objs ts tc = (sortOldest objs).take k := hplan
  have hmet : (((sizeSum ((sortOldest objs).drop k) : ℚ)) ≤ ts ∧
      ((sortOldest objs).drop k).length ≤ tc) := by
    rcases hend with h | h
    · exact h
    · rw [h, List.drop_length]
      exact ⟨by simpa [sizeSum] using hts, by simp⟩
  refine ⟨k, hplan', hmet, hmin, ?_⟩
  intro x hx y hy hlt
  by_contra hyn
  have hysort : y ∈ (sortOldest objs).take k ++ (sortOldest objs).drop k := by
    rw [List.take_append_drop]
    exact (sortOldest_perm objs).mem_iff.mpr hy
  rcases List.mem_append.mp hysort with h | h
  · exact hyn (by rw [hplan']; exact h)
  · have hx' : x ∈ (sortOldest objs).take k := by rw [hplan'] at hx; exact hx
    have hxle := pairwise_take_drop (sortOldest_pairwise objs) k x hx' y h
    exact absurd hlt (not_lt.mpr hxle)

/-- The spec's worked eviction scenario: three 100-byte objects at times
1, 2, 3. -/
def wScenario : List ObjEntry := [⟨"k1", 100, 1⟩, ⟨"k2", 100, 2⟩, ⟨"k3", 100, 3⟩]

/-- C4 witness: the minimality theorem at the spec's scenario
(`targetSize = 150`, `targetCount = 3`), on which the plan is `[k1, k2]`. -/
theorem eviction_plan_minimal_oldest_first_witness :
    (0 : ℚ) ≤ 150 ∧
    (evictionPlan wScenario 150 3).map (fun o => o.key) = ["k1", "k2"] ∧
    (∃ k, evictionPlan wScenario 150 3 = (sortOldest wScenario).take k ∧
      (((sizeSum ((sortOldest wScenario).drop k) : ℚ)) ≤ 150 ∧
        ((sortOldest wScenario).drop k).length ≤ 3) ∧
      (∀ j, j < k →
        ¬ (((sizeSum ((sortOldest wScenario).drop j) : ℚ)) ≤ 150 ∧
          ((sortOldest wScenario).drop j).length ≤ 3)) ∧
      (∀ x ∈ evictionPlan wScenario 150 3, ∀ y ∈ wScenario, y.uploaded < x.uploaded →
        y ∈ evictionPlan wScenario 150 3)) :=
  ⟨by norm_num, by decide,
   eviction_plan_minimal_oldest_first wScenario 150 3 (by norm_num)⟩

/-- C6 (counterexample): the claim fails as stated.  An adapter returning a
cyclic, never-absent cursor makes the eviction pass's pagination loop run
forever (no fuel bound ever completes it), and the capacity accountant's
loop also never exits on it (its ceiling counts collected objects, not page
iterations, and cyclic empty pages never raise the count). -/
theorem pagination_ceiling_counterexample :
    (¬ ∃ fuel, (cleanupDrain cyclicAdapter fuel).isSome = true) ∧
    (¬ ∃ fuel, (statsDrain cyclicAdapter fuel).isSome = true) := by
  constructor
  · rintro ⟨fuel, h⟩
    rw [show cleanupDrain cyclicAdapter fuel
        = cleanupListLoop cyclicAdapter fuel (some "c") [] from rfl] at h
    rw [cleanupListLoop_cyclic fuel "c" []] at h
    simp at h
  · rintro ⟨fuel, h⟩
    rw [show statsDrain cyclicAdapter fuel
        = statsLoop cyclicAdapter fuel (some "c") (sizeSum []) 0 from rfl] at h
    rw [statsLoop_cyclic fuel "c" (sizeSum []) 0 (by norm_num [MAX_FILES_IN_BUCKET])] at h
    simp at h

/-- C6 (amended): only the capacity accountant's loop is defended, and by an
object-count ceiling rather than a page-iteration ceiling: with fuel
`MAX_FILES_IN_BUCKET * 2` it completes against every adapter all of whose
pages are non-empty (each iteration then adds at least one object, and the
loop exits once `MAX_FILES_IN_BUCKET * 2` objects are collected). -/
theorem stats_drain_object_ceiling (ad : Option String → Page)
    (hne : ∀ c, (ad c).objs ≠ []) :
    (statsDrain ad (MAX_FILES_IN_BUCKET * 2)).isSome = true := by
  simp only [statsDrain]
  exact statsLoop_bounded ad hne _ _ _ _ (Nat.le_add_right _ _)

/-- A single-page adapter with one object and no continuation cursor. -/
def wAdapter : Option String → Page := fun _ => { objs := [⟨"p", 1, 0⟩], cursor := none }

/-- C6 witness: the bounded-drain theorem at a concrete non-empty-page
adapter. -/
theorem stats_drain_object_ceiling_witness :
    (∀ c, (wAdapter c).objs ≠ []) ∧ (statsDrain wAdapter (MAX_FILES_IN_BUCKET * 2)).isSome = true :=
  ⟨fun c => by simp [wAdapter], stats_drain_object_ceiling wAdapter (fun c => by simp [wAdapter])⟩

/-- C7: target monotonicity of the eviction plan.  Loosening either target
never increases the number of objects selected. -/
theorem plan_monotone_in_targets (objs : List ObjEntry) (ts ts' : ℚ) (tc tc' : Nat)
    (h1 : ts ≤ ts') (h2 : tc ≤ tc') :
    (evictionPlan objs ts' tc').length ≤ (evictionPlan objs ts tc).length := by
  simp only [evictionPlan]
  exact planLoop_length_mono _ _ _ h1 h2

/-- C7 witness: monotonicity at the spec's scenario with loosened targets. -/
theorem plan_monotone_in_targets_witness :
    (150 : ℚ) ≤ 300 ∧ (3 : Nat) ≤ 5 ∧
      (evictionPlan wScenario 300 5).length ≤ (evictionPlan wScenario 150 3).length :=
  ⟨by norm_num, by norm_num,
   plan_monotone_in_targets wScenario 150 300 3 5 (by norm_num) (by norm_num)⟩

/-- Two objects with equal timestamps whose keys are in descending order. -/
def objA : ObjEntry := ⟨"a", 1, 5⟩

/-- See `objA`. -/
def objB : ObjEntry := ⟨"b", 1, 5⟩

/-- C8 (counterexample): the claim fails as stated.  The source's comparator
`a.uploaded - b.uploaded` breaks no ties by key: on the listing
`[objB, objA]` with equal timestamps and `"a" < "b"`, the sort leaves
`objB` before `objA` instead of reordering them key-ascending. -/
theorem tiebreak_counterexample :
    objA.uploaded = objB.uploaded ∧ objA.key.data < objB.key.data ∧
    sortOldest [objB, objA] = [objB, objA] :=
  ⟨rfl, by decide, by decide⟩

/-- C8 (amended): the sort is stable, not key-tie-breaking: it orders by
`uploadedAt` ascending, and the objects at any fixed timestamp appear in
exactly their original listed order.  The plan is thus a deterministic
function of the listed sequence and the targets; equal-timestamp objects
are in key-ascending order only when the adapter listed them that way. -/
theorem sort_stable_no_key_tiebreak (l : List ObjEntry) (t : Int) :
    (sortOldest l).Pairwise (fun a b => a.uploaded ≤ b.uploaded) ∧
    (sortOldest l).filter (fun o => o.uploaded == t) = l.filter (fun o => o.uploaded == t) :=
  ⟨sortOldest_pairwise l, sortOldest_filter_eq l t⟩

/-- C9: partial delete failures are non-fatal.  Whatever subset of deletions
fails, the deletion loop still attempts every planned key, the cleanup
result triple is unchanged, and the admission decision and the performance
of the pending write are unchanged. -/
theorem partial_delete_failures_nonfatal (objs : List ObjEntry) (ts : ℚ) (tc : Nat)
    (fails g : String → Bool) (store : List ObjEntry) (r : AdmitRequest) :
    (cleanupOldFiles (some objs) ts tc fails).2.1 = (evictionPlan objs ts tc).map (fun o => o.key) ∧
    (cleanupOldFiles (some objs) ts tc fails).1 = (cleanupOldFiles (some objs) ts tc g).1 ∧
    (handleUploadImage store { r with deleteFails := g }).decision
      = (handleUploadImage store r).decision ∧
    (handleUploadImage store { r with deleteFails := g }).written
      = (handleUploadImage store r).written := by
  obtain ⟨fs, nk, nu, lok, clok, df⟩ := r
  refine ⟨?_, rfl, ?_, ?_⟩
  · simp [cleanupOldFiles, evictionPlan, deleteLoop_fst]
  all_goals
    simp only [handleUploadImage]
    split_ifs <;> rfl

/-- C10: the cleanup pass's reported outcome reflects the plan, not the
actual deletions: whatever deletions fail, `deleted` is the number of
planned keys and `remainingSize`/`remainingCount` are the snapshot totals
minus all planned sizes and counts. -/
theorem cleanup_result_reflects_plan (objs : List ObjEntry) (ts : ℚ) (tc : Nat)
    (fails : String → Bool) :
    (cleanupOldFiles (some objs) ts tc fails).1 =
      { deleted := (evictionPlan objs ts tc).length,
        remainingSize := sizeSum objs - sizeSum (evictionPlan objs ts tc),
        remainingCount := objs.length - (evictionPlan objs ts tc).length } := by
  have h := planLoop_snd (sortOldest objs) (sizeSum (sortOldest objs))
    ((sortOldest objs).length) ts tc
  simp only [cleanupOldFiles, evictionPlan, CleanupResult.mk.injEq]
  refine ⟨trivial, ?_, ?_⟩
  · rw [h.1, sizeSum_sortOldest]
  · rw [h.2, length_sortOldest]

end SendBird
